import Mathlib

/-!
Verification of the room session core of the `truth_or_dare` repository.

The definitions below are a shallow embedding of the JavaScript source:
* `src/utils/gameLogic.js`   — `determineWinner`, `isValidChoice`, `isValidTruthDare`;
* `src/app.js`               — the in-memory `games[room]` record and the
  `joinRoom` / `makeChoice` / `truthOrDare` / `disconnect` / `leaveRoom`
  socket handlers (their pure state transitions plus the ordered list of
  `socket.emit` / `io.to(...).emit` observables);
* `src/utils/gameStateSync.js` — the pure serialisation performed by
  `saveGameState`, the rehydration branch of the `joinRoom` handler, and the
  per-room debounce machine of `debouncedSaveGameState`.

JavaScript objects with string keys are modelled as association lists in
insertion order (JS string-keyed objects enumerate keys in insertion order);
`null`/`undefined` are modelled with `Option`; the `x || d` idiom on strings
maps `none` and `some ""` to the default. Database reads/writes and chat
history are I/O and are not part of the room state machine; the emits that
depend only on room state are kept, in source order.
-/

/-- Association-list lookup, first binding wins (JS property read). -/
def lookupA {α : Type} : List (String × α) → String → Option α
  | [], _ => none
  | (k, v) :: rest, key => if k = key then some v else lookupA rest key

/-- Association-list upsert: JS `obj[k] = v` keeps the original key position
on update and appends a fresh key at the end. -/
def upsertA {α : Type} : List (String × α) → String → α → List (String × α)
  | [], k, v => [(k, v)]
  | (k', v') :: rest, k, v =>
      if k' = k then (k, v) :: rest else (k', v') :: upsertA rest k v

/-- Association-list delete (JS `delete obj[k]`). -/
def eraseA {α : Type} : List (String × α) → String → List (String × α)
  | [], _ => []
  | (k', v') :: rest, k => if k' = k then rest else (k', v') :: eraseA rest k

/-- JS `x || null` on a nullable string: `null`, `undefined` and `""` are falsy. -/
def jsOrNull : Option String → Option String
  | none => none
  | some s => if s = "" then none else some s

/-- JS `s || d` on a string. -/
def jsOrStr (s d : String) : String := if s = "" then d else s

/-- JS truthiness of a nullable string. -/
def jsTruthy : Option String → Bool
  | none => false
  | some s => s != ""

/-- Emit an event for a socket id when the looked-up socket id is non-null,
mirroring the `if (socketId) io.to(socketId).emit(...)` pattern. -/
def emitOpt {ε : Type} : Option String → (String → ε) → List ε
  | none, _ => []
  | some s, f => [f s]

/-- One roster entry: `games[room].users[userId] = { socketId, username }`.
A `none` socket id is the "disconnected" sentinel (`socketId: null`). The
source additionally checks `io.sockets.sockets` liveness before using a
socket id; the live-socket registry is modelled by socket-id presence. -/
structure UserInfo where
  socketId : Option String
  username : String
deriving DecidableEq, Repr

/-- The in-memory room record `games[room]` initialised in the `joinRoom`
handler (src/app.js lines 358–368). -/
structure Room where
  users : List (String × UserInfo)
  choices : List (String × String)
  chatVisible : Bool
  gameState : String
  gamePhase : String
  winner : Option String
  loser : Option String
  truthDareSelection : Option String
  awaitingTruthDare : Bool
deriving DecidableEq, Repr

/-- Fresh in-memory state (src/app.js lines 358–368). -/
def freshRoom : Room :=
  { users := [], choices := [], chatVisible := false, gameState := "waiting"
    gamePhase := "lobby", winner := none, loser := none
    truthDareSelection := none, awaitingTruthDare := false }

/-- Payload of the `fullStateRestoration` event (src/app.js lines 449–460). -/
structure FullState where
  gamePhase : String
  gameState : String
  chatVisible : Bool
  awaitingTruthDare : Bool
  winner : Option String
  loser : Option String
  truthDareSelection : Option String
  userChoice : Option String
  isWinner : Bool
  isLoser : Bool
deriving DecidableEq, Repr

/-- The observable signals sent by the handlers: one constructor per
`emit` call shape, plus `phaseSet`, which records each assignment to
`games[room].gamePhase` in source order (the spec treats the
`result` → `truth_dare_selection` phase hop as two observable signals). -/
inductive Emit where
  | errorEv (message : String)
  | roomFullEv
  | joinedRoomEv
  | playerUpdateEv (names : List String)
  | fullStateEv (fs : FullState)
  | newMessageEv (content : String)
  | newMessageTo (sid : String) (content : String)
  | resultMsg (sid : String) (message : String)
  | showModal (sid : String) (modalType : String)
  | hideModalEv
  | chatVisibleEv (b : Bool)
  | truthOrDareResponseEv (username selection : String)
  | gameResetEv
  | phaseSet (phase : String)
deriving DecidableEq, Repr

/-! ## src/utils/gameLogic.js -/

/-- `winConditions` map of `determineWinner` (gameLogic.js lines 15–19). -/
def winConditions : String → Option String
  | "rock" => some "scissors"
  | "paper" => some "rock"
  | "scissors" => some "paper"
  | _ => none

/-- `determineWinner(choice1, choice2)` (gameLogic.js lines 12–22):
0 = draw, 1 = player 1 wins, 2 = player 2 wins. In JS,
`winConditions[choice1] === choice2` is false when the key is absent. -/
def determineWinner (choice1 choice2 : String) : Nat :=
  if choice1 = choice2 then 0
  else if winConditions choice1 = some choice2 then 1 else 2

/-- `isValidChoice` (gameLogic.js lines 29–31). -/
def isValidChoice (choice : String) : Bool :=
  ["rock", "paper", "scissors"].contains choice

/-- `isValidTruthDare` (gameLogic.js lines 38–40). -/
def isValidTruthDare (selection : String) : Bool :=
  ["truth", "dare"].contains selection

/-- The three-move enumeration. -/
def rpsMoves : List String := ["rock", "paper", "scissors"]

/-- The `rules` map inlined in the `makeChoice` handler
(src/app.js line 507): `{ rock: "scissors", scissors: "paper", paper: "rock" }`. -/
def appRules : String → Option String
  | "rock" => some "scissors"
  | "scissors" => some "paper"
  | "paper" => some "rock"
  | _ => none

/-! ## Roster accessors (src/app.js lines 262–313) -/

/-- `getUserIdBySocketId`: first user id whose stored socket id equals the
given live socket id (src/app.js lines 284–296). -/
def getUserIdBySocketId : List (String × UserInfo) → String → Option String
  | [], _ => none
  | (k, v) :: rest, sid =>
      if v.socketId = some sid then some k else getUserIdBySocketId rest sid

/-- `getSocketIdByUserId` (src/app.js lines 262–282); the source's extra
`io.sockets.sockets` liveness check is modelled by socket-id presence. -/
def getSocketIdByUserId (r : Room) (userId : String) : Option String :=
  match lookupA r.users userId with
  | some info => info.socketId
  | none => none

/-- `getUsernameByUserId` (src/app.js lines 298–303), with JS rendering
`null` in a template string when the user is missing. -/
def usernameD (r : Room) (userId : String) : String :=
  match lookupA r.users userId with
  | some info => info.username
  | none => "null"

/-! ## Round resolution (src/app.js lines 499–575)

`resolveRound` embeds the body of `if (Object.keys(games[room].choices).length
=== 2) { ... }` inside the `makeChoice` handler; `makeChoice` embeds the whole
handler. Each assignment to `gamePhase` adds a `phaseSet` marker to the trace
at the position of the assignment. -/

def resolveRound (r : Room) : Room × List Emit :=
  match r.choices with
  | (userId1, c1) :: (userId2, c2) :: _ =>
    let username1 := usernameD r userId1
    if c1 = c2 then
      -- Tie: reset choices, phase → lobby, tie result to both live sockets.
      let r1 : Room := { r with choices := [], gamePhase := "lobby" }
      let socketId1 := getSocketIdByUserId r1 userId1
      let socketId2 := getSocketIdByUserId r1 userId2
      (r1,
        [Emit.phaseSet "lobby",
         Emit.newMessageEv (username1 ++ ": It" ++ "\x27" ++ "s a tie")]
        ++ emitOpt socketId1 (fun s => Emit.resultMsg s ("It" ++ "\x27" ++ "s a tie"))
        ++ emitOpt socketId2 (fun s => Emit.resultMsg s ("It" ++ "\x27" ++ "s a tie")))
    else
      let winnerUserId := if appRules c1 = some c2 then userId1 else userId2
      let loserUserId := if winnerUserId = userId1 then userId2 else userId1
      let winnerUsername := usernameD r winnerUserId
      let loserUsername := usernameD r loserUserId
      let r1 : Room :=
        { r with winner := some winnerUserId, loser := some loserUserId
                 awaitingTruthDare := true, truthDareSelection := none
                 gamePhase := "result" }
      let winnerSocketId := getSocketIdByUserId r1 winnerUserId
      let loserSocketId := getSocketIdByUserId r1 loserUserId
      let r2 : Room :=
        { r1 with chatVisible := true, gamePhase := "truth_dare_selection"
                  choices := [] }
      (r2,
        [Emit.phaseSet "result",
         Emit.newMessageEv (winnerUsername ++ " won! " ++ loserUsername
           ++ " must choose truth or dare.")]
        ++ emitOpt winnerSocketId
            (fun s => Emit.resultMsg s "You win! You may ask a truth or give a dare.")
        ++ emitOpt loserSocketId
            (fun s => Emit.resultMsg s "You lose! Choose Truth or Dare.")
        ++ emitOpt loserSocketId (fun s => Emit.showModal s "choose")
        ++ emitOpt winnerSocketId (fun s => Emit.showModal s "waiting")
        ++ [Emit.chatVisibleEv true, Emit.phaseSet "truth_dare_selection"])
  | _ => (r, [])

/-- The `makeChoice` handler (src/app.js lines 480–576): record the choice
under the submitter's user id, set phase `choosing`, and resolve when two
choices are present. -/
def makeChoice (r : Room) (sid choice : String) : Room × List Emit :=
  match getUserIdBySocketId r.users sid with
  | none => (r, [])
  | some currentUserId =>
    let currentUsername := usernameD r currentUserId
    let r1 : Room :=
      { r with choices := upsertA r.choices currentUserId choice
               gamePhase := "choosing" }
    let evs := [Emit.phaseSet "choosing",
                Emit.newMessageEv (currentUsername ++ " chose " ++ choice)]
    if r1.choices.length = 2 then
      let res := resolveRound r1
      (res.1, evs ++ res.2)
    else
      (r1, evs)

/-- The `truthOrDare` handler (src/app.js lines 578–642): guarded by
`awaitingTruthDare && loser === currentUserId`; anything else falls through
with no state change and no emit. -/
def truthOrDare (r : Room) (sid selection : String) : Room × List Emit :=
  match getUserIdBySocketId r.users sid with
  | none => (r, [])
  | some currentUserId =>
    if r.awaitingTruthDare = true ∧ r.loser = some currentUserId then
      let r1 : Room :=
        { r with truthDareSelection := some selection
                 awaitingTruthDare := false, gamePhase := "chat" }
      let loserUsername := usernameD r currentUserId
      let winnerSocketId := match r.winner with
        | some winnerId => getSocketIdByUserId r1 winnerId
        | none => none
      let loserSocketId := getSocketIdByUserId r1 currentUserId
      (r1,
        [Emit.phaseSet "chat"]
        ++ emitOpt loserSocketId
            (fun s => Emit.newMessageTo s
              ("You chose <strong>" ++ selection ++ "</strong>"))
        ++ emitOpt winnerSocketId
            (fun s => Emit.newMessageTo s
              (loserUsername ++ " selected <strong>" ++ selection ++ "</strong>"))
        ++ [Emit.hideModalEv, Emit.truthOrDareResponseEv loserUsername selection])
    else
      (r, [])

/-! ## Durable snapshot (src/utils/gameStateSync.js) and rehydration -/

/-- The JSON blob written to the `game_state` column
(gameStateSync.js lines 73–81). -/
structure StateBlob where
  users : List (String × UserInfo)
  choices : List (String × String)
  winner : Option String
  loser : Option String
  chatVisible : Bool
  awaitingTruthDare : Bool
  truthDareSelection : Option String
deriving DecidableEq, Repr

/-- The columns of the persisted game row that the restore path reads
(`loadGameState`, gameStateSync.js lines 33–45). -/
structure DbGame where
  status : String
  gamePhase : String
  state : StateBlob
deriving DecidableEq, Repr

/-- The phase written by `saveGameState` (gameStateSync.js lines 84–95):
the stored `gamePhase` is overridden by the `gameState` tag and the
chat/decision flags. -/
def computePhase (r : Room) : String :=
  if r.gameState = "waiting" then "lobby"
  else if r.gameState = "choosing" then "choosing"
  else if r.awaitingTruthDare then "truth_dare_selection"
  else if r.chatVisible then "chat"
  else if r.gameState = "completed" then "completed"
  else jsOrStr r.gamePhase "lobby"

/-- The pure serialisation performed by `saveGameState`
(gameStateSync.js lines 59–131): blob, phase and status columns. -/
def saveSnapshot (r : Room) : DbGame :=
  { status := if r.gameState = "completed" then "completed" else "in_progress"
    gamePhase := computePhase r
    state :=
      { users := r.users, choices := r.choices
        winner := jsOrNull r.winner, loser := jsOrNull r.loser
        chatVisible := r.chatVisible, awaitingTruthDare := r.awaitingTruthDare
        truthDareSelection := jsOrNull r.truthDareSelection } }

/-- The cache-miss rehydration branch of the `joinRoom` handler
(src/app.js lines 355–386): starts from the fresh record and overwrites the
restored fields. `users` is NOT read back from the stored blob, and the
in-memory `gameState` tag is derived from the `status` column. -/
def restoreRoom (dbGame : Option DbGame) : Room :=
  match dbGame with
  | none => freshRoom
  | some db =>
      { freshRoom with
          chatVisible := db.state.chatVisible
          gameState := if db.status = "waiting" then "waiting" else "in_progress"
          gamePhase := jsOrStr db.gamePhase "lobby"
          winner := jsOrNull db.state.winner
          loser := jsOrNull db.state.loser
          truthDareSelection := jsOrNull db.state.truthDareSelection
          awaitingTruthDare := db.state.awaitingTruthDare
          choices := db.state.choices }

/-- Serialise then rehydrate: the reconciliation round-trip of the spec. -/
def roundTrip (r : Room) : Room := restoreRoom (some (saveSnapshot r))

/-! ## joinRoom / disconnect / leaveRoom (src/app.js lines 340–478, 696–793) -/

/-- The `joinRoom` handler's room mutation and emits
(src/app.js lines 340–478). `g` is the live registry entry (`games[room]`),
`dbGame` the result of `loadGameState`; the room record is created (fresh or
rehydrated) before the capacity check, the capacity check applies only to
non-rejoining identities, and a successful join upserts the binding and sends
`joinedRoom`, `playerUpdate`, `fullStateRestoration` and, when a decision is
pending, the truth/dare modal. Chat-history replay is database I/O and is
omitted from the trace. -/
def joinRoom (g : Option Room) (dbGame : Option DbGame)
    (room sid username userId : String) : Option Room × List Emit :=
  if room = "" ∨ username = "" ∨ userId = "" then
    (g, [Emit.errorEv "Invalid request"])
  else
    let g0 := match g with
      | some r => r
      | none => restoreRoom dbGame
    let isRejoining : Bool := match lookupA g0.users userId with
      | some info => info.socketId == some sid || info.socketId == none
      | none => false
    if isRejoining = false ∧ 2 ≤ g0.users.length then
      (some g0, [Emit.roomFullEv])
    else
      let r1 : Room :=
        { g0 with users := upsertA g0.users userId ⟨some sid, username⟩ }
      let names := r1.users.map (fun p => p.2.username)
      let fs : FullState :=
        { gamePhase := r1.gamePhase, gameState := r1.gameState
          chatVisible := r1.chatVisible
          awaitingTruthDare := r1.awaitingTruthDare
          winner := r1.winner, loser := r1.loser
          truthDareSelection := r1.truthDareSelection
          userChoice := jsOrNull (lookupA r1.choices userId)
          isWinner := r1.winner = some userId
          isLoser := r1.loser = some userId }
      let modal : List Emit :=
        if r1.awaitingTruthDare then
          if r1.loser = some userId ∧ jsTruthy r1.truthDareSelection = false then
            [Emit.showModal sid "choose"]
          else if r1.winner = some userId ∧ jsTruthy r1.truthDareSelection = false then
            [Emit.showModal sid "waiting"]
          else []
        else []
      (some r1,
        [Emit.joinedRoomEv, Emit.playerUpdateEv names, Emit.fullStateEv fs]
        ++ modal)

/-- Usernames of the entries with a live socket (src/app.js lines 711–713). -/
def connectedNames : List (String × UserInfo) → List String
  | [] => []
  | (_, v) :: rest =>
      match v.socketId with
      | some _ => v.username :: connectedNames rest
      | none => connectedNames rest

/-- The `disconnect` handler (src/app.js lines 696–737): the roster entry is
kept with a `null` socket id. The 5-minute idle cleanup it schedules is
modelled by `idleCleanup` below. -/
def disconnectStep (g : Option Room) (sid : String) : Option Room × List Emit :=
  match g with
  | none => (none, [])
  | some r =>
    match getUserIdBySocketId r.users sid with
    | none => (some r, [])
    | some currentUserId =>
      let currentUsername := usernameD r currentUserId
      let r1 : Room :=
        { r with users := upsertA r.users currentUserId ⟨none, currentUsername⟩ }
      (some r1, [Emit.playerUpdateEv (connectedNames r1.users)])

/-- The check-at-fire-time body of the idle-cleanup timer
(src/app.js lines 721–732): delete the room iff no user is still connected. -/
def idleCleanup (g : Option Room) : Option Room :=
  match g with
  | none => none
  | some r => if connectedNames r.users = [] then none else some r

/-- The `leaveRoom` handler (src/app.js lines 740–793): remove the entry and
the leaver's choice, clear winner/loser if they were the leaver, then either
delete the room immediately (roster empty) or reset the whole round state for
the remaining player. -/
def leaveRoom (g : Option Room) (sid : String) : Option Room × List Emit :=
  match g with
  | none => (none, [])
  | some r =>
    match getUserIdBySocketId r.users sid with
    | none => (some r, [])
    | some currentUserId =>
      let users1 := eraseA r.users currentUserId
      -- The source also drops the leaver's choice and conditionally clears
      -- winner/loser here (lines 753–763); both branches below overwrite
      -- those fields (deletion, or the full reset of lines 779–785), so the
      -- intermediate values never reach the result.
      let _choices1 := eraseA r.choices currentUserId
      let _winner1 := if r.winner = some currentUserId then none else r.winner
      let _loser1 := if r.loser = some currentUserId then none else r.loser
      let remainingUsernames := users1.map (fun p => p.2.username)
      if remainingUsernames = [] then
        (none, [Emit.playerUpdateEv remainingUsernames])
      else
        (some { r with users := users1, choices := [], winner := none
                       loser := none, chatVisible := false
                       awaitingTruthDare := false, truthDareSelection := none
                       gamePhase := "lobby" },
         [Emit.playerUpdateEv remainingUsernames, Emit.phaseSet "lobby",
          Emit.gameResetEv])


/-! ## Action sequences over a room registry entry -/

/-- The participant-driven actions that mutate the roster, plus the
check-at-fire-time idle cleanup. -/
inductive RoomAction where
  | join (dbGame : Option DbGame) (room sid username userId : String)
  | disconnect (sid : String)
  | leave (sid : String)
  | cleanup
deriving Repr

/-- Apply one action to the live registry entry for a room. -/
def applyAction (g : Option Room) : RoomAction → Option Room
  | .join db room sid username userId => (joinRoom g db room sid username userId).1
  | .disconnect sid => (disconnectStep g sid).1
  | .leave sid => (leaveRoom g sid).1
  | .cleanup => idleCleanup g

/-- Run a sequence of actions starting from an absent room. -/
def applyActions (acts : List RoomAction) : Option Room :=
  acts.foldl applyAction none

/-- Roster size of a registry entry (0 when the room does not exist). -/
def rosterSize : Option Room → Nat
  | none => 0
  | some r => r.users.length

/-! ## The per-room debounce machine (gameStateSync.js lines 316–331)

`debouncedSaveGameState(delay)` closes over a `timers` map from room code to
the pending `setTimeout`; each call clears the room's pending timer and
schedules a fresh one that performs the durable write with the state passed
to that call. The machine below processes a time-ordered trace of calls:
timers due at or before the next call fire first (producing writes), then the
call cancels and reschedules its room's timer. -/

/-- `scheduleSaveGameState = debouncedSaveGameState(500)` (src/app.js line 255). -/
def debounceDelay : Nat := 500

/-- One call to the debounced saver: wall-clock time, room code, and the room
state passed to the call. -/
structure Sched where
  t : Nat
  room : String
  st : Room
deriving Repr

/-- Fire the due timers, then clear-and-reschedule the calling room's timer.
The accumulator is `(pending timers, durable writes so far)`; both store
`(room, fire time, state)`. -/
def schedStep (delay : Nat)
    (acc : List (String × Nat × Room) × List (String × Nat × Room))
    (e : Sched) :
    List (String × Nat × Room) × List (String × Nat × Room) :=
  let fired := acc.1.filter (fun p => decide (p.2.1 ≤ e.t))
  let rest := acc.1.filter (fun p => decide (¬ p.2.1 ≤ e.t))
  (eraseA rest e.room ++ [(e.room, e.t + delay, e.st)], acc.2 ++ fired)

/-- Process a trace of calls. -/
def processEvents (delay : Nat)
    (acc : List (String × Nat × Room) × List (String × Nat × Room)) :
    List Sched → List (String × Nat × Room) × List (String × Nat × Room)
  | [] => acc
  | e :: rest => processEvents delay (schedStep delay acc e) rest

/-- All durable writes produced by a trace, letting every timer still pending
at the end of the trace fire. -/
def runSched (delay : Nat) (evs : List Sched) : List (String × Nat × Room) :=
  let acc := processEvents delay ([], []) evs
  acc.2 ++ acc.1

/-- The calls after the first one each arrive within the debounce window of
their predecessor (times nondecreasing, consecutive gap `< delay`). -/
def withinWindow (delay : Nat) : Nat → List Sched → Prop
  | _, [] => True
  | prev, e :: rest => prev ≤ e.t ∧ e.t < prev + delay ∧ withinWindow delay e.t rest

/-- Time and state of the last call of a trace (with a default). -/
def lastSched (prev : Nat) (s0 : Room) : List Sched → Nat × Room
  | [] => (prev, s0)
  | e :: rest => lastSched e.t e.st rest

/-! ## Association-list lemmas -/

theorem length_upsertA_le {α : Type} (l : List (String × α)) (k : String) (v : α) :
    (upsertA l k v).length ≤ l.length + 1 := by
  induction l with
  | nil => simp [upsertA]
  | cons hd tl ih =>
      simp only [upsertA]
      split
      · simp
      · simpa using Nat.succ_le_succ ih

theorem length_upsertA_of_mem {α : Type} (l : List (String × α)) (k : String)
    (v : α) (h : lookupA l k ≠ none) : (upsertA l k v).length = l.length := by
  induction l with
  | nil => simp [lookupA] at h
  | cons hd tl ih =>
      simp only [upsertA, lookupA] at *
      by_cases hk : hd.1 = k
      · simp [hk]
      · simp only [hk, if_false] at h ⊢
        simp [ih h]

theorem lookupA_isSome_of_getUserId (l : List (String × UserInfo))
    (sid uid : String) (h : getUserIdBySocketId l sid = some uid) :
    lookupA l uid ≠ none := by
  induction l with
  | nil => simp [getUserIdBySocketId] at h
  | cons hd tl ih =>
      simp only [getUserIdBySocketId] at h
      simp only [lookupA]
      by_cases hk : hd.1 = uid
      · simp [hk]
      · simp only [hk, if_false]
        split at h
        · exact absurd (Option.some.inj h) (by exact fun e => hk e)
        · exact ih h

theorem length_eraseA_le {α : Type} (l : List (String × α)) (k : String) :
    (eraseA l k).length ≤ l.length := by
  induction l with
  | nil => simp [eraseA]
  | cons hd tl ih =>
      simp only [eraseA]
      split
      · simp
      · simpa using Nat.succ_le_succ ih

theorem length_eraseA_of_mem {α : Type} (l : List (String × α)) (k : String)
    (h : lookupA l k ≠ none) : (eraseA l k).length + 1 = l.length := by
  induction l with
  | nil => simp [lookupA] at h
  | cons hd tl ih =>
      simp only [eraseA, lookupA] at *
      by_cases hk : hd.1 = k
      · simp [hk]
      · simp only [hk, if_false] at h ⊢
        simp [ih h]

theorem restoreRoom_users (db : Option DbGame) : (restoreRoom db).users = [] := by
  cases db <;> rfl

/-! ## Roster-size preservation lemmas -/

theorem rosterSize_join_le (g : Option Room) (db : Option DbGame)
    (room sid username userId : String) (h : rosterSize g ≤ 2) :
    rosterSize (joinRoom g db room sid username userId).1 ≤ 2 := by
  by_cases hv : room = "" ∨ username = "" ∨ userId = ""
  · simpa [joinRoom, hv] using h
  · cases g with
    | none =>
        have hu : (restoreRoom db).users = [] := restoreRoom_users db
        simp [joinRoom, hv, hu, lookupA, upsertA, rosterSize]
    | some r =>
        cases hl : lookupA r.users userId with
        | none =>
            have hne1 : lookupA r.users userId = none := hl
            by_cases hlen : 2 ≤ r.users.length
            · simpa [joinRoom, hv, hl, hlen, rosterSize] using h
            · have hle := length_upsertA_le r.users userId ⟨some sid, username⟩
              have hlt : r.users.length + 1 ≤ 2 := by omega
              simp only [joinRoom, hv, or_self, if_false, hl, rosterSize]
              simp only [rosterSize] at h
              simp [hl, hlen, rosterSize]
              omega
        | some info =>
            have hne1 : lookupA r.users userId ≠ none := by simp [hl]
            have heq := length_upsertA_of_mem r.users userId
              ⟨some sid, username⟩ hne1
            by_cases hb : (info.socketId == some sid || info.socketId == none) = true
            · simp [joinRoom, hv, hl, hb, rosterSize, heq]
              simpa [rosterSize] using h
            · by_cases hlen : 2 ≤ r.users.length
              · simpa [joinRoom, hv, hl, hb, hlen, rosterSize] using h
              · simp [joinRoom, hv, hl, hb, hlen, rosterSize, heq]
                simpa [rosterSize] using h

theorem rosterSize_disconnect_le (g : Option Room) (sid : String)
    (h : rosterSize g ≤ 2) : rosterSize (disconnectStep g sid).1 ≤ 2 := by
  cases g with
  | none => simp [disconnectStep, rosterSize]
  | some r =>
      cases hu : getUserIdBySocketId r.users sid with
      | none => simpa [disconnectStep, hu, rosterSize] using h
      | some uid =>
          have hne := lookupA_isSome_of_getUserId r.users sid uid hu
          have heq := length_upsertA_of_mem r.users uid
            ⟨none, usernameD r uid⟩ hne
          simp [disconnectStep, hu, rosterSize, heq]
          simpa [rosterSize] using h

theorem rosterSize_leave_le (g : Option Room) (sid : String)
    (h : rosterSize g ≤ 2) : rosterSize (leaveRoom g sid).1 ≤ 2 := by
  cases g with
  | none => simp [leaveRoom, rosterSize]
  | some r =>
      cases hu : getUserIdBySocketId r.users sid with
      | none => simpa [leaveRoom, hu, rosterSize] using h
      | some uid =>
          have hle := length_eraseA_le r.users uid
          by_cases hempty :
              (eraseA r.users uid).map (fun p => p.2.username) = []
          · simp [leaveRoom, hu, hempty, rosterSize]
          · simp [leaveRoom, hu, hempty, rosterSize]
            simp only [rosterSize] at h
            omega

theorem rosterSize_cleanup_le (g : Option Room) (h : rosterSize g ≤ 2) :
    rosterSize (idleCleanup g) ≤ 2 := by
  cases g with
  | none => simpa [idleCleanup] using h
  | some r =>
      by_cases hc : connectedNames r.users = []
      · simp [idleCleanup, hc, rosterSize]
      · simpa [idleCleanup, hc] using h

theorem rosterSize_applyAction_le (g : Option Room) (a : RoomAction)
    (h : rosterSize g ≤ 2) : rosterSize (applyAction g a) ≤ 2 := by
  cases a with
  | join db room sid username userId =>
      exact rosterSize_join_le g db room sid username userId h
  | disconnect sid => exact rosterSize_disconnect_le g sid h
  | leave sid => exact rosterSize_leave_le g sid h
  | cleanup => exact rosterSize_cleanup_le g h

theorem rosterSize_foldl_le (acts : List RoomAction) (g : Option Room)
    (h : rosterSize g ≤ 2) : rosterSize (acts.foldl applyAction g) ≤ 2 := by
  induction acts generalizing g with
  | nil => simpa using h
  | cons a rest ih => exact ih (applyAction g a) (rosterSize_applyAction_le g a h)

/-- C4: for every sequence of join/rejoin/disconnect/leave (and idle-cleanup)
actions the roster size stays in `{0, 1, 2}`, and a join by a third distinct
identity while the roster has 2 entries is rejected with the room-full signal
and leaves the room record (all entries and bindings) unchanged. -/
theorem C4_roster_bound :
    (∀ acts : List RoomAction, rosterSize (applyActions acts) ≤ 2)
    ∧ (∀ (r : Room) (db : Option DbGame) (room sid username userId : String),
        room ≠ "" → username ≠ "" → userId ≠ "" →
        r.users.length = 2 → lookupA r.users userId = none →
        joinRoom (some r) db room sid username userId =
          (some r, [Emit.roomFullEv])) := by
  constructor
  · intro acts
    exact rosterSize_foldl_le acts none (by simp [rosterSize])
  · intro r db room sid username userId h1 h2 h3 hlen hl
    simp [joinRoom, h1, h2, h3, hl, hlen]

/-- Witness for C4 at concrete inputs: a three-action trace keeps the roster
within bound, and a third identity's join into a full two-user room yields
exactly the room-full rejection. -/
theorem C4_roster_bound_witness :
    rosterSize (applyActions
      [RoomAction.join none "R" "s1" "Alice" "u1",
       RoomAction.join none "R" "s2" "Bob" "u2",
       RoomAction.disconnect "s1"]) ≤ 2
    ∧ joinRoom
        (some { freshRoom with
          users := [("u1", ⟨some "s1", "Alice"⟩), ("u2", ⟨some "s2", "Bob"⟩)] })
        none "R" "s3" "Carol" "u3" =
      (some { freshRoom with
          users := [("u1", ⟨some "s1", "Alice"⟩), ("u2", ⟨some "s2", "Bob"⟩)] },
       [Emit.roomFullEv]) :=
  ⟨C4_roster_bound.1 _,
   C4_roster_bound.2 _ none "R" "s3" "Carol" "u3"
     (by decide) (by decide) (by decide) (by decide) (by decide)⟩

/-- C7: over the three-move enumeration, `determineWinner` ties exactly on
equal moves, each move beats exactly one other move and loses to exactly one
other move, the beats-relation is rock→scissors, scissors→paper, paper→rock,
and the `rules` map inlined in the `makeChoice` handler agrees with
`winConditions`. (It is a pure Lean function of its two arguments, so
call-to-call determinism is inherent.) -/
theorem C7_move_resolution :
    (∀ m1 ∈ rpsMoves, ∀ m2 ∈ rpsMoves,
        (determineWinner m1 m2 = 0 ↔ m1 = m2))
    ∧ (∀ m ∈ rpsMoves,
        (rpsMoves.filter (fun x => determineWinner m x == 1)).length = 1
        ∧ (rpsMoves.filter (fun x => determineWinner m x == 2)).length = 1)
    ∧ determineWinner "rock" "scissors" = 1
    ∧ determineWinner "scissors" "paper" = 1
    ∧ determineWinner "paper" "rock" = 1
    ∧ (∀ m ∈ rpsMoves, appRules m = winConditions m) := by
  refine ⟨?_, ?_, by decide, by decide, by decide, ?_⟩
  · intro m1 h1 m2 h2
    simp only [rpsMoves, List.mem_cons, List.not_mem_nil, or_false] at h1 h2
    rcases h1 with rfl | rfl | rfl <;> rcases h2 with rfl | rfl | rfl <;> decide
  · intro m h
    simp only [rpsMoves, List.mem_cons, List.not_mem_nil, or_false] at h
    rcases h with rfl | rfl | rfl <;> exact ⟨by decide, by decide⟩
  · intro m h
    simp only [rpsMoves, List.mem_cons, List.not_mem_nil, or_false] at h
    rcases h with rfl | rfl | rfl <;> decide

/-- Witness for C7 at the concrete pair (rock, rock) and move rock. -/
theorem C7_move_resolution_witness :
    (determineWinner "rock" "rock" = 0 ↔ "rock" = "rock")
    ∧ (rpsMoves.filter (fun x => determineWinner "rock" x == 1)).length = 1 :=
  ⟨C7_move_resolution.1 "rock" (by decide) "rock" (by decide),
   (C7_move_resolution.2.1 "rock" (by decide)).1⟩

/-- C1: in the choosing phase with both participants' pending choices
present (and both bound to live transports), the resolve step yields exactly
one of two outcomes. Equal moves: `pendingChoices` is cleared, a tie result
is emitted to both, the phase becomes `lobby`, and winner/loser are not set
(all other fields unchanged). Unequal moves: the fixed beats-relation picks
winner and loser, `winner`/`loser` are set to those identities,
`awaitingTruthDare` and `chatVisible` become true, and the phase goes to
`result` and then immediately to `truth_dare_selection`, with the
round-result signals emitted between the two phase assignments and before
the modal prompts. -/
theorem C1_round_resolution (r : Room) (u1 u2 c1 c2 s1 s2 n1 n2 : String)
    (_hphase : r.gamePhase = "choosing")
    (hch : r.choices = [(u1, c1), (u2, c2)])
    (hu1 : lookupA r.users u1 = some ⟨some s1, n1⟩)
    (hu2 : lookupA r.users u2 = some ⟨some s2, n2⟩)
    (_hm1 : c1 ∈ rpsMoves) (_hm2 : c2 ∈ rpsMoves) (hne : u1 ≠ u2) :
    (c1 = c2 →
      resolveRound r =
        ({ r with choices := [], gamePhase := "lobby" },
         [Emit.phaseSet "lobby",
          Emit.newMessageEv (n1 ++ ": It" ++ "\x27" ++ "s a tie"),
          Emit.resultMsg s1 ("It" ++ "\x27" ++ "s a tie"),
          Emit.resultMsg s2 ("It" ++ "\x27" ++ "s a tie")]))
    ∧ (c1 ≠ c2 →
        resolveRound r =
          ({ r with
              choices := []
              winner := some (if appRules c1 = some c2 then u1 else u2)
              loser := some (if appRules c1 = some c2 then u2 else u1)
              awaitingTruthDare := true
              truthDareSelection := none
              chatVisible := true
              gamePhase := "truth_dare_selection" },
           [Emit.phaseSet "result",
            Emit.newMessageEv ((if appRules c1 = some c2 then n1 else n2)
              ++ " won! " ++ (if appRules c1 = some c2 then n2 else n1)
              ++ " must choose truth or dare."),
            Emit.resultMsg (if appRules c1 = some c2 then s1 else s2)
              "You win! You may ask a truth or give a dare.",
            Emit.resultMsg (if appRules c1 = some c2 then s2 else s1)
              "You lose! Choose Truth or Dare.",
            Emit.showModal (if appRules c1 = some c2 then s2 else s1) "choose",
            Emit.showModal (if appRules c1 = some c2 then s1 else s2) "waiting",
            Emit.chatVisibleEv true, Emit.phaseSet "truth_dare_selection"])) := by
  constructor
  · intro heq
    subst heq
    simp [resolveRound, hch, usernameD, getSocketIdByUserId, hu1, hu2, emitOpt]
  · intro hne2
    by_cases hr : appRules c1 = some c2
    · simp [resolveRound, hch, hr, usernameD, getSocketIdByUserId,
        hu1, hu2, emitOpt, hne2]
    · have hne' : u2 ≠ u1 := fun e => hne e.symm
      simp [resolveRound, hch, hr, usernameD, getSocketIdByUserId,
        hu1, hu2, emitOpt, hne2, hne']

/-- Two-user room with a rock/rock tie pending, used by the C1 witness. -/
def tieRoom : Room :=
  { freshRoom with
      users := [("u1", ⟨some "s1", "Alice"⟩), ("u2", ⟨some "s2", "Bob"⟩)]
      choices := [("u1", "rock"), ("u2", "rock")]
      gamePhase := "choosing" }

/-- Witness for C1: the tie outcome at a concrete rock/rock room. -/
theorem C1_round_resolution_witness :
    resolveRound tieRoom =
      ({ tieRoom with choices := [], gamePhase := "lobby" },
       [Emit.phaseSet "lobby",
        Emit.newMessageEv ("Alice" ++ ": It" ++ "\x27" ++ "s a tie"),
        Emit.resultMsg "s1" ("It" ++ "\x27" ++ "s a tie"),
        Emit.resultMsg "s2" ("It" ++ "\x27" ++ "s a tie")]) :=
  (C1_round_resolution tieRoom "u1" "u2" "rock" "rock" "s1" "s2" "Alice" "Bob"
    (by decide) (by decide) (by decide) (by decide) (by decide) (by decide)
    (by decide)).1 rfl

/-- C3: a Decision transitions the room iff `awaitingTruthDare` holds and the
submitting identity is the current loser; then the selection is recorded,
`awaitingTruthDare` is cleared and the phase becomes `chat` (with the
personalised reveal messages); any other Decision leaves the entire room
unchanged and emits nothing at all. -/
theorem C3_decision_step (r : Room) (sid sel uid : String)
    (hbind : getUserIdBySocketId r.users sid = some uid) :
    (¬(r.awaitingTruthDare = true ∧ r.loser = some uid) →
        truthOrDare r sid sel = (r, []))
    ∧ (∀ wid ws wn n,
        r.awaitingTruthDare = true → r.loser = some uid →
        r.winner = some wid →
        lookupA r.users wid = some ⟨some ws, wn⟩ →
        lookupA r.users uid = some ⟨some sid, n⟩ →
        truthOrDare r sid sel =
          ({ r with truthDareSelection := some sel
                    awaitingTruthDare := false
                    gamePhase := "chat" },
           [Emit.phaseSet "chat",
            Emit.newMessageTo sid ("You chose <strong>" ++ sel ++ "</strong>"),
            Emit.newMessageTo ws (n ++ " selected <strong>" ++ sel ++ "</strong>"),
            Emit.hideModalEv, Emit.truthOrDareResponseEv n sel])) := by
  constructor
  · intro hcond
    simp only [truthOrDare, hbind]
    rw [if_neg hcond]
  · intro wid ws wn n hA hB hw hlw hlu
    simp [truthOrDare, hbind, hA, hB, hw, hlw, hlu, usernameD,
      getSocketIdByUserId, emitOpt]

/-- Two-user room awaiting Bob's truth/dare decision, used by witnesses. -/
def decisionRoom : Room :=
  { freshRoom with
      users := [("u1", ⟨some "s1", "Alice"⟩), ("u2", ⟨some "s2", "Bob"⟩)]
      winner := some "u1", loser := some "u2"
      awaitingTruthDare := true, chatVisible := true
      gamePhase := "truth_dare_selection" }

/-- Witness for C3: the loser's decision transitions the concrete room; the
winner's attempt is a silent no-op. -/
theorem C3_decision_step_witness :
    truthOrDare decisionRoom "s2" "truth" =
      ({ decisionRoom with truthDareSelection := some "truth"
                           awaitingTruthDare := false
                           gamePhase := "chat" },
       [Emit.phaseSet "chat",
        Emit.newMessageTo "s2" ("You chose <strong>" ++ "truth" ++ "</strong>"),
        Emit.newMessageTo "s1"
          ("Bob" ++ " selected <strong>" ++ "truth" ++ "</strong>"),
        Emit.hideModalEv, Emit.truthOrDareResponseEv "Bob" "truth"])
    ∧ truthOrDare decisionRoom "s1" "truth" = (decisionRoom, []) :=
  ⟨(C3_decision_step decisionRoom "s2" "truth" "u2" (by decide)).2
      "u1" "s1" "Alice" "Bob" (by decide) (by decide) (by decide)
      (by decide) (by decide),
   (C3_decision_step decisionRoom "s1" "truth" "u1" (by decide)).1 (by decide)⟩

/-- C10: an explicit leave from a two-entry roster deletes the leaver's entry
and resets the whole round state seen by the remaining participant — phase
`lobby`, `choices` emptied, winner/loser/selection cleared, chat and decision
flags false — regardless of whether those fields referenced the leaver; a
leave that empties the roster deletes the live room immediately (no idle
window is involved). -/
theorem C10_leave_reset (r : Room) (sid uid : String) :
    (r.users.length = 2 → getUserIdBySocketId r.users sid = some uid →
      leaveRoom (some r) sid =
        (some { r with users := eraseA r.users uid
                       choices := []
                       winner := none
                       loser := none
                       chatVisible := false
                       awaitingTruthDare := false
                       truthDareSelection := none
                       gamePhase := "lobby" },
         [Emit.playerUpdateEv
            ((eraseA r.users uid).map (fun p => p.2.username)),
          Emit.phaseSet "lobby", Emit.gameResetEv]))
    ∧ (∀ uname, r.users = [(uid, ⟨some sid, uname⟩)] →
        leaveRoom (some r) sid = (none, [Emit.playerUpdateEv []])) := by
  constructor
  · intro hlen hu
    have hne := lookupA_isSome_of_getUserId r.users sid uid hu
    have herase := length_eraseA_of_mem r.users uid hne
    have hmapne : (eraseA r.users uid).map (fun p => p.2.username) ≠ [] := by
      intro hmap
      have hzero : (eraseA r.users uid).length = 0 := by
        simpa using congrArg List.length hmap
      omega
    simp [leaveRoom, hu, hmapne]
  · intro uname husers
    simp [leaveRoom, husers, getUserIdBySocketId, eraseA]

/-- Witness for C10: Alice leaves a two-user mid-game room (the reset clears
winner/loser that referenced the *other* user too); Bob's leave from the
resulting one-user room deletes the room. -/
theorem C10_leave_reset_witness :
    leaveRoom (some decisionRoom) "s1" =
      (some { decisionRoom with
                users := [("u2", ⟨some "s2", "Bob"⟩)]
                choices := []
                winner := none
                loser := none
                chatVisible := false
                awaitingTruthDare := false
                truthDareSelection := none
                gamePhase := "lobby" },
       [Emit.playerUpdateEv ["Bob"], Emit.phaseSet "lobby", Emit.gameResetEv])
    ∧ leaveRoom (some { freshRoom with users := [("u2", ⟨some "s2", "Bob"⟩)] })
        "s2" = (none, [Emit.playerUpdateEv []]) :=
  ⟨(C10_leave_reset decisionRoom "s1" "u1").1 (by decide) (by decide),
   (C10_leave_reset { freshRoom with users := [("u2", ⟨some "s2", "Bob"⟩)] }
      "s2" "u2").2 "Bob" (by decide)⟩

/-- One-user room with a live transport, used for C5/C6/C8. -/
def soloRoom : Room :=
  { freshRoom with users := [("u1", ⟨some "s1", "Alice"⟩)] }

/-- Counterexample to C5: in a room whose roster has fewer than 2 members, a
Move submission is NOT rejected — no error signal of any kind is emitted, the
choice is recorded and the phase moves to `choosing`, so the room state
changes. No `RoomNotReady` (or any other) rejection exists in the handler. -/
theorem C5_room_not_ready_cex :
    soloRoom.users.length < 2
    ∧ (makeChoice soloRoom "s1" "rock").1 ≠ soloRoom
    ∧ (makeChoice soloRoom "s1" "rock").1.choices = [("u1", "rock")]
    ∧ (makeChoice soloRoom "s1" "rock").1.gamePhase = "choosing"
    ∧ (makeChoice soloRoom "s1" "rock").2 =
        [Emit.phaseSet "choosing", Emit.newMessageEv "Alice chose rock"] := by
  decide

/-- C5 as amended: a Move submitted in a one-member room (no pending choices)
is accepted, not rejected: the choice is recorded under the submitter's
identity, the phase is set to `choosing`, no round resolution happens, and
the only emits are the phase marker and the choice chat message — no error
is reported to anyone. -/
theorem C5_room_not_ready_amended (r : Room) (sid uid uname c : String)
    (husers : r.users = [(uid, ⟨some sid, uname⟩)])
    (hch : r.choices = []) :
    makeChoice r sid c =
      ({ r with choices := [(uid, c)], gamePhase := "choosing" },
       [Emit.phaseSet "choosing", Emit.newMessageEv (uname ++ " chose " ++ c)]) := by
  simp [makeChoice, husers, hch, getUserIdBySocketId, usernameD, lookupA,
    upsertA]

/-- Witness for the amended C5 at a concrete one-user room. -/
theorem C5_room_not_ready_amended_witness :
    makeChoice soloRoom "s1" "paper" =
      ({ soloRoom with choices := [("u1", "paper")], gamePhase := "choosing" },
       [Emit.phaseSet "choosing",
        Emit.newMessageEv ("Alice" ++ " chose " ++ "paper")]) :=
  C5_room_not_ready_amended soloRoom "s1" "u1" "Alice" "paper"
    (by decide) (by decide)

/-- The `fullStateRestoration` payload sent on the conflicting join of the C6
counterexample. -/
def fsConflict : FullState :=
  { gamePhase := "lobby", gameState := "waiting", chatVisible := false
    awaitingTruthDare := false, winner := none, loser := none
    truthDareSelection := none, userChoice := none
    isWinner := false, isLoser := false }

/-- Counterexample to C6: a join using an identity already bound to a live,
different transport (`u1` is live on `s1`; the join comes from `s2`) is not
rejected at all — no `IdentityConflict` or any error is emitted, the join is
acknowledged, and the existing binding is overwritten with the new
transport. -/
theorem C6_identity_conflict_cex :
    joinRoom (some soloRoom) none "R" "s2" "Alice" "u1" =
      (some { soloRoom with users := [("u1", ⟨some "s2", "Alice"⟩)] },
       [Emit.joinedRoomEv, Emit.playerUpdateEv ["Alice"],
        Emit.fullStateEv fsConflict]) := by
  decide

/-- C6 as amended: a join whose identity is already bound to a live,
different transport is treated like a brand-new join: if the roster already
has 2 entries it is rejected with the room-full signal (not an identity
conflict) and the roster is unchanged; otherwise it is accepted and the
identity's transport binding is silently overwritten. -/
theorem C6_identity_conflict_amended (r : Room) (db : Option DbGame)
    (room sid osid uname newName userId : String)
    (hroom : room ≠ "") (hname : newName ≠ "") (huid : userId ≠ "")
    (hl : lookupA r.users userId = some ⟨some osid, uname⟩)
    (hsid : osid ≠ sid) :
    (2 ≤ r.users.length →
      joinRoom (some r) db room sid newName userId =
        (some r, [Emit.roomFullEv]))
    ∧ (¬ 2 ≤ r.users.length →
        (joinRoom (some r) db room sid newName userId).1 =
          some { r with users := upsertA r.users userId ⟨some sid, newName⟩ }) := by
  constructor
  · intro hlen
    simp [joinRoom, hroom, hname, huid, hl, hsid, hlen]
  · intro hlen
    simp [joinRoom, hroom, hname, huid, hl, hsid, hlen]

/-- Two-user room with Alice live on `s1`, used by the C6 witness. -/
def fullRoom : Room :=
  { freshRoom with
      users := [("u1", ⟨some "s1", "Alice"⟩), ("u2", ⟨some "s2", "Bob"⟩)] }

/-- Witness for the amended C6: the full-room conflicting join is rejected as
room-full; the one-user-room conflicting join rebinds the transport. -/
theorem C6_identity_conflict_amended_witness :
    joinRoom (some fullRoom) none "R" "s9" "Alice" "u1" =
      (some fullRoom, [Emit.roomFullEv])
    ∧ (joinRoom (some soloRoom) none "R" "s9" "Alice" "u1").1 =
        some { soloRoom with
                 users := upsertA soloRoom.users "u1" ⟨some "s9", "Alice"⟩ } :=
  ⟨(C6_identity_conflict_amended fullRoom none "R" "s9" "s1" "Alice" "Alice"
      "u1" (by decide) (by decide) (by decide) (by decide) (by decide)).1
      (by decide),
   (C6_identity_conflict_amended soloRoom none "R" "s9" "s1" "Alice" "Alice"
      "u1" (by decide) (by decide) (by decide) (by decide) (by decide)).2
      (by decide)⟩

/-- Counterexample to C8: the handlers perform no value validation. A Move
outside the enumeration is stored verbatim in `choices`, and a Decision
outside {truth, dare} is stored verbatim in `truthDareSelection`, even
though `isValidChoice` / `isValidTruthDare` reject them. -/
theorem C8_validation_cex :
    isValidChoice "banana" = false
    ∧ (makeChoice soloRoom "s1" "banana").1.choices = [("u1", "banana")]
    ∧ isValidTruthDare "pizza" = false
    ∧ (truthOrDare decisionRoom "s2" "pizza").1.truthDareSelection =
        some "pizza" := by
  decide

/-- C8 as amended: the socket handlers never invoke the
`isValidChoice`/`isValidTruthDare` helpers: ANY submitted string (valid or
not) is recorded — a Move is upserted into `choices` with the phase set to
`choosing`, and a Decision from the awaited loser is stored in
`truthDareSelection` with the phase set to `chat`. -/
theorem C8_validation_amended (r : Room) (sid uid v : String)
    (hbind : getUserIdBySocketId r.users sid = some uid) :
    ((upsertA r.choices uid v).length ≠ 2 →
      (makeChoice r sid v).1 =
        { r with choices := upsertA r.choices uid v, gamePhase := "choosing" })
    ∧ (r.awaitingTruthDare = true → r.loser = some uid →
        (truthOrDare r sid v).1 =
          { r with truthDareSelection := some v
                   awaitingTruthDare := false
                   gamePhase := "chat" }) := by
  constructor
  · intro hlen
    simp [makeChoice, hbind, hlen]
  · intro hA hB
    simp [truthOrDare, hbind, hA, hB]

/-- Witness for the amended C8 at concrete out-of-enumeration values. -/
theorem C8_validation_amended_witness :
    (makeChoice soloRoom "s1" "banana").1 =
      { soloRoom with choices := upsertA soloRoom.choices "u1" "banana"
                      gamePhase := "choosing" }
    ∧ (truthOrDare decisionRoom "s2" "pizza").1 =
        { decisionRoom with truthDareSelection := some "pizza"
                            awaitingTruthDare := false
                            gamePhase := "chat" } :=
  ⟨(C8_validation_amended soloRoom "s1" "u1" "banana" (by decide)).1
      (by decide),
   (C8_validation_amended decisionRoom "s2" "u2" "pizza" (by decide)).2
      (by decide) (by decide)⟩

/-- The live room reached by: Alice joins, Bob joins, Alice plays rock, Bob
plays scissors (fresh process, no database row). -/
def roomAfterRound : Room :=
  (makeChoice
    (makeChoice
      (((joinRoom (joinRoom none none "R" "s1" "Alice" "u1").1 none "R" "s2"
          "Bob" "u2").1).getD freshRoom)
      "s1" "rock").1
    "s2" "scissors").1

/-- C2 (code bug): the reconciliation round-trip is NOT observably
equivalent. At the reachable post-round room above, serialising with
`saveGameState` and rehydrating through the joinRoom cache-miss path yields
an empty roster (the restore path never reads `users` back from the blob)
and phase `lobby` instead of `truth_dare_selection` (`saveGameState`
overwrites the stored phase with `lobby` because the in-memory `gameState`
tag is still `waiting`: no handler ever updates it during play). The
remaining blob fields do survive the trip. -/
theorem C2_roundtrip_bug :
    roomAfterRound.gamePhase = "truth_dare_selection"
    ∧ roomAfterRound.users =
        [("u1", ⟨some "s1", "Alice"⟩), ("u2", ⟨some "s2", "Bob"⟩)]
    ∧ (roundTrip roomAfterRound).users = []
    ∧ (roundTrip roomAfterRound).gamePhase = "lobby"
    ∧ (roundTrip roomAfterRound).winner = some "u1"
    ∧ (roundTrip roomAfterRound).loser = some "u2"
    ∧ (roundTrip roomAfterRound).awaitingTruthDare = true
    ∧ roundTrip roomAfterRound ≠ roomAfterRound := by
  decide

/-- Processing a single-room trace whose calls all land inside the (restarted)
debounce window never fires the pending timer: each call just replaces it. -/
theorem processEvents_single_room (delay : Nat) (R : String) :
    ∀ (evs : List Sched), (∀ e ∈ evs, e.room = R) →
    ∀ (prev : Nat) (s0 : Room) (ws : List (String × Nat × Room)),
      withinWindow delay prev evs →
      processEvents delay ([(R, prev + delay, s0)], ws) evs =
        ([(R, (lastSched prev s0 evs).1 + delay, (lastSched prev s0 evs).2)],
         ws) := by
  intro evs
  induction evs with
  | nil =>
      intro _ prev s0 ws _
      simp [processEvents, lastSched]
  | cons e rest ih =>
      intro hroom prev s0 ws hw
      obtain ⟨h1, h2, h3⟩ := hw
      have hR : e.room = R := hroom e (List.mem_cons_self e rest)
      have hnotdue : ¬ (prev + delay ≤ e.t) := by omega
      have hstep : schedStep delay ([(R, prev + delay, s0)], ws) e =
          ([(R, e.t + delay, e.st)], ws) := by
        simp [schedStep, hnotdue, h2, eraseA, hR]
      simp only [processEvents]
      rw [hstep]
      have hrec := ih (fun x hx => hroom x (List.mem_cons_of_mem e hx))
        e.t e.st ws h3
      simpa [lastSched] using hrec

/-- C9: N calls for the same room inside one (restarted) debounce window
produce exactly one durable write, carrying the Nth (final) state, at the
last call's time plus the delay; after the trace, the only pending timer is
the one restarted by the final call (never a stale earlier one). -/
theorem C9_debounce_collapse (delay : Nat) (R : String) (e : Sched)
    (rest : List Sched) (hR : e.room = R) (hrest : ∀ x ∈ rest, x.room = R)
    (hw : withinWindow delay e.t rest) :
    processEvents delay ([], []) (e :: rest) =
      ([(R, (lastSched e.t e.st rest).1 + delay,
          (lastSched e.t e.st rest).2)], [])
    ∧ runSched delay (e :: rest) =
      [(R, (lastSched e.t e.st rest).1 + delay,
        (lastSched e.t e.st rest).2)] := by
  have hstep : schedStep delay ([], []) e = ([(R, e.t + delay, e.st)], []) := by
    simp [schedStep, eraseA, hR]
  have hmain := processEvents_single_room delay R rest hrest e.t e.st [] hw
  constructor
  · simp only [processEvents]
    rw [hstep]
    exact hmain
  · simp only [runSched, processEvents]
    rw [hstep, hmain]
    simp

/-- Witness for C9: two rapid saves of distinct states for room `R` within
the 500 ms window collapse into the single write of the second state. -/
theorem C9_debounce_collapse_witness :
    runSched debounceDelay
      [⟨1000, "R", freshRoom⟩, ⟨1200, "R", soloRoom⟩] =
      [("R", 1200 + debounceDelay, soloRoom)] :=
  (C9_debounce_collapse debounceDelay "R" ⟨1000, "R", freshRoom⟩
      [⟨1200, "R", soloRoom⟩] rfl
      (by
        intro x hx
        rcases List.mem_singleton.mp hx with rfl
        rfl)
      (by
        refine ⟨by norm_num, by norm_num [debounceDelay], trivial⟩)).2
